import Mathlib

/-!
Verification of the GPU rigid-body simulation headers (`object.h`, `render.h`)
against their natural-language specification.

The two headers in the repository are almost entirely declarations: `object.h`
declares the `object` class, the fixed-size `objects` array (capacity
`OBJECT_COUNT = 1500`), the prototypes of `loadOBJ` and
`getMaximumBoundingBox`, and the process-wide geometry and interop buffers;
`render.h` declares the rendering/interop entry point `runCuda` and its
collaborators.  The bodies of these functions are not part of the file set,
so the operational components (Mesh Loader, Bounding Normalizer, Object
Registry API, Interop Buffer Manager, Simulation Step) are modelled from the
specification, over exact rational arithmetic in place of IEEE floats.
The preprocessor behaviour of the headers (their include guards) is embedded
directly from the source text.
-/

/-- A 3-component vector of exact rationals, standing in for the source's
`float4`/`glm::vec3` payloads (the 4th component is alignment-only padding
per the spec and carries no semantics). -/
structure Vec3 where
  x : ℚ
  y : ℚ
  z : ℚ
deriving DecidableEq, Repr

namespace Vec3

/-- Componentwise addition. -/
def add (a b : Vec3) : Vec3 := ⟨a.x + b.x, a.y + b.y, a.z + b.z⟩

/-- Scaling by a rational, used for `velocity * dt`. -/
def scale (c : ℚ) (a : Vec3) : Vec3 := ⟨c * a.x, c * a.y, c * a.z⟩

instance : Add Vec3 := ⟨Vec3.add⟩

/-- The zero vector, the "velocity = (0,0,0)" of the spec. -/
def zero : Vec3 := ⟨0, 0, 0⟩

/-- The absolute coordinate magnitudes of a vertex, one per axis. -/
def absCoords (v : Vec3) : List ℚ := [|v.x|, |v.y|, |v.z|]

end Vec3

/-- A 4×4 rotation matrix, mirroring `float rotation_matrix[4][4]` in
`object.h`. -/
def Mat4 : Type := Fin 4 → Fin 4 → ℚ

instance : DecidableEq Mat4 := by unfold Mat4; infer_instance

/-- The identity rotation, the spec's "identity at creation if no rotation
is configured". -/
def Mat4.id : Mat4 := fun i j => if i = j then 1 else 0

/-- Embedded from `object.h` line 2: `#define OBJECT_COUNT 1500` — the fixed
compile-time capacity of the `objects` array. -/
def OBJECT_COUNT : Nat := 1500

/-- Embedded from `object.h` line 3: `#define MAX_MAPPINGS 100000000`. -/
def MAX_MAPPINGS : Nat := 100000000

/-- One rigid-body record, field for field the `object` class of `object.h`:
`int n_vertices; float4 speed; float4 centroid; float4 initial_location;
float rotation_matrix[4][4];`. -/
structure RigidObject where
  n_vertices : Nat
  speed : Vec3
  centroid : Vec3
  initial_location : Vec3
  rotation_matrix : Mat4
deriving DecidableEq

/-- The Object Registry state: the live prefix of the fixed-capacity
`objects[OBJECT_COUNT]` array of `object.h`, kept as the list of registered
records in handle order. -/
structure Registry where
  objs : List RigidObject
deriving DecidableEq

/-- Error taxonomy of spec §7. -/
inductive RegError where
  | CapacityExceeded
  | InvalidHandle
deriving DecidableEq, Repr

/-- The cumulative vertex budget of a registry: `vertexCount` summed across
all live objects, which the §3 invariant bounds by the shared vertex-buffer
capacity. -/
def vertexBudget (reg : Registry) : Nat :=
  (reg.objs.map RigidObject.n_vertices).sum

/-- Modelled from the spec: `Register(vertexCount, initialPosition, velocity)
-> handle` of the Object Registry (§4.3), whose body is not in the file set —
only the backing `objects[OBJECT_COUNT]` array is declared in `object.h`.
Succeeds with the next free handle while the registry holds fewer than
`OBJECT_COUNT` records and the new cumulative vertex budget stays within the
build-time bound (`MAX_MAPPINGS`, the shared-mapping/vertex capacity of
`object.h` line 3, §6's "maximum shared-mapping count"); otherwise — registry
full or the cumulative vertex budget would be exceeded — it fails with
`CapacityExceeded` and returns the registry unchanged (no partial state). -/
def Register (reg : Registry) (o : RigidObject) :
    Except RegError Nat × Registry :=
  if reg.objs.length < OBJECT_COUNT ∧
      vertexBudget reg + o.n_vertices ≤ MAX_MAPPINGS then
    (Except.ok reg.objs.length, ⟨reg.objs ++ [o]⟩)
  else
    (Except.error RegError.CapacityExceeded, reg)

/-- Modelled from the spec: `Get(handle) -> RigidObject&` of the Object
Registry (§4.3), whose body is not in the file set. Returns the record at
the handle when in range, and fails with `InvalidHandle` when out of range. -/
def Get (reg : Registry) (h : Nat) : Except RegError RigidObject :=
  match reg.objs[h]? with
  | some o => Except.ok o
  | none => Except.error RegError.InvalidHandle

/-- Modelled from the spec: the Bounding Normalizer `getMaximumBoundingBox`
(§4.2), declared in `object.h` line 42 but with no body in the file set —
"given a collection of per-object vertex-position collections, return the
single largest absolute coordinate magnitude found across all objects and
all axes", with sentinel 0 on empty input. A fold of `max` seeded at 0 is
order-independent as the spec demands. -/
def getMaximumBoundingBox (objs : List (List Vec3)) : ℚ :=
  ((objs.flatMap (fun vs => vs.flatMap Vec3.absCoords)).foldl max 0)

/-- All absolute coordinate magnitudes appearing in a collection of
per-object vertex collections, flattened. -/
def allAbsCoords (objs : List (List Vec3)) : List ℚ :=
  objs.flatMap (fun vs => vs.flatMap Vec3.absCoords)

/-! ### Interop Buffer Manager (spec §4.4)

`object.h` line 47 declares the shared resource
(`struct cudaGraphicsResource *cuda_vbo_resource`) and `render.h` line 119
declares `runCuda`, the per-frame map/kernel/unmap driver; the state-machine
bodies are not in the file set and are modelled from the spec. -/

/-- The lifecycle states of the interop buffer (spec §4.4). -/
inductive BufState where
  | Unregistered
  | OwnedByGraphics
  | OwnedByCompute
deriving DecidableEq, Repr

/-- The operations of the Interop Buffer Manager (spec §4.4). -/
inductive InteropOp where
  | CreateAndRegister
  | AcquireForCompute
  | ReleaseFromCompute
  | Destroy
deriving DecidableEq, Repr

/-- The interop error of the spec's taxonomy (§7): state-machine misuse. -/
inductive InteropError where
  | InteropError
deriving DecidableEq, Repr

/-- Modelled from the spec: one step of the Interop Buffer Manager state
machine (§4.4), whose body is not in the file set. `CreateAndRegister` is
valid only from `Unregistered` and moves to `OwnedByGraphics`;
`AcquireForCompute` is valid only from `OwnedByGraphics` and moves to
`OwnedByCompute` (calling it while already `OwnedByCompute` fails with
`InteropError`, "reported not silently ignored"); `ReleaseFromCompute`
moves back to `OwnedByGraphics`; `Destroy` is valid only from
`OwnedByGraphics`. A failed operation reports the error and leaves the
state unchanged (the frame is skipped, the process does not crash). -/
def interopStep (s : BufState) (op : InteropOp) :
    Except InteropError Unit × BufState :=
  match s, op with
  | BufState.Unregistered, InteropOp.CreateAndRegister =>
      (Except.ok (), BufState.OwnedByGraphics)
  | BufState.OwnedByGraphics, InteropOp.AcquireForCompute =>
      (Except.ok (), BufState.OwnedByCompute)
  | BufState.OwnedByCompute, InteropOp.ReleaseFromCompute =>
      (Except.ok (), BufState.OwnedByGraphics)
  | BufState.OwnedByGraphics, InteropOp.Destroy =>
      (Except.ok (), BufState.Unregistered)
  | s, _ => (Except.error InteropError.InteropError, s)

/-- The state of the interop buffer after running a sequence of operations
from state `s`. -/
def runStates (s : BufState) : List InteropOp → BufState
  | [] => s
  | op :: rest => runStates (interopStep s op).2 rest

/-- The per-operation results of running a sequence of operations from
state `s`. -/
def runResults (s : BufState) : List InteropOp → List (Except InteropError Unit)
  | [] => []
  | op :: rest => (interopStep s op).1 :: runResults (interopStep s op).2 rest

/-! ### Simulation Step (spec §4.5)

`render.h` line 119 declares `void runCuda(struct cudaGraphicsResource **)`,
the host driver of the per-frame kernel; the kernel body is not in the file
set and the per-object state update is modelled from the spec: integrate
`centroid += velocity * dt` and apply the configured angular update rule to
the rotation matrix (the rule itself is unspecified, so it is a parameter). -/

/-- Modelled from the spec: the per-object state update of the Simulation
Step (§4.5), whose body is not in the file set. `rot` is "whatever angular
update rule is configured" acting on the rotation matrix; the centroid
integrates the velocity over the timestep; no other field is touched. -/
def simStepObject (rot : Mat4 → Mat4) (dt : ℚ) (o : RigidObject) : RigidObject :=
  { o with
    centroid := o.centroid + Vec3.scale dt o.speed
    rotation_matrix := rot o.rotation_matrix }

/-- `n` consecutive frames of the Simulation Step applied to one object. -/
def simStepN (rot : Mat4 → Mat4) (dt : ℚ) (o : RigidObject) : Nat → RigidObject
  | 0 => o
  | n + 1 => simStepN rot dt (simStepObject rot dt o) n

/-- Modelled from the spec: the buffer offset of an object's reserved write
range in the shared interop buffer — "a pure function of the object handle
and a precomputed prefix-sum of vertex counts" (spec §9): the sum of the
vertex counts of all preceding objects. -/
def objOffset (counts : List Nat) (i : Nat) : Nat :=
  ((counts.take i).sum)

/-- Whether buffer position `p` lies in object `i`'s reserved write range
`[objOffset i, objOffset i + counts[i])`. -/
def inWriteRange (counts : List Nat) (i p : Nat) : Bool :=
  decide (objOffset counts i ≤ p) && decide (p < objOffset counts i + counts.getD i 0)

/-! ### Mesh Loader (spec §4.1)

`object.h` lines 37–41 declare
`bool loadOBJ(const char *path, std::vector<glm::vec3> &out_vertices,
std::vector<unsigned int> &mappings);` with no body in the file set;
the loader is modelled from the spec. -/

/-- One record of a mesh description file: a vertex position, a triangular
face of three indices into the vertices read so far, or a record the loader
cannot parse. -/
inductive ObjRecord where
  | vertex (x y z : ℚ)
  | face (a b c : Nat)
  | malformed
deriving DecidableEq, Repr

/-- The Mesh Loader failure of the spec's taxonomy (§7): file not found,
malformed record, or unsupported primitive. -/
inductive LoadError where
  | fileNotFound
  | malformedRecord
deriving DecidableEq, Repr

/-- Modelled from the spec: the record-by-record accumulation pass of the
Mesh Loader (§4.1), whose body is not in the file set. Vertices append in
first-appearance order; a face appends its three indices to the mappings,
each of which must reference an already-read vertex (an out-of-range index
is a malformed record, preserving the §8 safety property that every index
in `mappings` is `< vertices.size()`); a malformed record aborts with
`LoadError`. -/
def parseRecords (vs : List Vec3) (ms : List Nat) :
    List ObjRecord → Except LoadError (List Vec3 × List Nat)
  | [] => Except.ok (vs, ms)
  | ObjRecord.vertex x y z :: rest => parseRecords (vs ++ [⟨x, y, z⟩]) ms rest
  | ObjRecord.face a b c :: rest =>
      if a < vs.length ∧ b < vs.length ∧ c < vs.length then
        parseRecords vs (ms ++ [a, b, c]) rest
      else
        Except.error LoadError.malformedRecord
  | ObjRecord.malformed :: _ => Except.error LoadError.malformedRecord

/-- Modelled from the spec: `loadOBJ` (§4.1) — `none` stands for a path whose
file cannot be opened. The parse runs on private accumulators and the output
containers are written only on success, so a failure "leaves them empty and
reports failure" rather than partially populating them. The result carries
the reported error (if any) together with the final contents of the two
output containers `out_vertices` and `mappings`. -/
def loadOBJ (file : Option (List ObjRecord)) :
    Option LoadError × List Vec3 × List Nat :=
  match file with
  | none => (some LoadError.fileNotFound, [], [])
  | some records =>
      match parseRecords [] [] records with
      | Except.ok (vs, ms) => (none, vs, ms)
      | Except.error e => (some e, [], [])

/-- The number of (well-formed) vertex records in a mesh file. -/
def countVertexRecords : List ObjRecord → Nat
  | [] => 0
  | ObjRecord.vertex _ _ _ :: rest => countVertexRecords rest + 1
  | _ :: rest => countVertexRecords rest

/-! ### Preprocessor behaviour of the headers (embedded from source)

`object.h` opens with `#ifdef OBJECT_H` (line 1) and closes with `#endif`
(line 56); `render.h` wraps its contents in `#ifdef RENDER_H` (lines 30 and
124). Neither file contains `#define OBJECT_H` or `#define RENDER_H`: the
`#define` directives inside the guarded bodies are `OBJECT_COUNT`,
`MAX_MAPPINGS`, `BLOCK_DIM`, `MAX` (object.h) and `WINDOWS_LEAN_AND_MEAN`,
`NOMINMAX`, `glutCloseFunc`, `GLM_FORCE_CUDA`, `MAX_EPSILON_ERROR`,
`THRESHOLD`, `REFRESH_DELAY` (render.h). -/

/-- The two forms of conditional-inclusion guard. `#ifdef` keeps the body
only when the name is already defined; `#ifndef` keeps it only when it is
not. -/
inductive GuardKind where
  | ifdefGuard
  | ifndefGuard
deriving DecidableEq, Repr

/-- A header file as the preprocessor sees it: a guard symbol, the kind of
guard directive, the declarations of the guarded body, and the symbols the
guarded body itself `#define`s. -/
structure Header where
  guardSymbol : String
  guardKind : GuardKind
  bodyDecls : List String
  bodyDefines : List String
deriving DecidableEq, Repr

/-- Embedded from `src/object.h`: guard `#ifdef OBJECT_H` around the whole
file body — the defines, the `object` class, the `objects` array, the
`loadOBJ` and `getMaximumBoundingBox` prototypes, and the global buffers. -/
def object_h : Header :=
  { guardSymbol := "OBJECT_H"
    guardKind := GuardKind.ifdefGuard
    bodyDecls :=
      ["object", "objects", "loadOBJ", "getMaximumBoundingBox",
       "vbo", "ibo", "cuda_vbo_resource", "boundingBoxLength",
       "vertices", "mappings"]
    bodyDefines :=
      ["OBJECT_COUNT", "MAX_MAPPINGS", "BLOCK_DIM", "MAX"] }

/-- Embedded from `src/render.h`: guard `#ifdef RENDER_H` around the file
body (lines 30–124) — all declarations of the header (the lines before the
guard are comments only). -/
def render_h : Header :=
  { guardSymbol := "RENDER_H"
    guardKind := GuardKind.ifdefGuard
    bodyDecls :=
      ["window_width", "window_height", "mesh_width", "mesh_height",
       "d_vbo_buffer", "g_fAnim", "mouse_old_x", "mouse_old_y",
       "mouse_buttons", "rotate_x", "rotate_y", "translate_z", "timer",
       "fpsCount", "fpsLimit", "g_Index", "avgFPS", "frameCount",
       "g_TotalErrors", "g_bQAReadback", "pArgc", "pArgv", "sSDKsample",
       "host_pos", "runTest", "cleanup", "initGL", "createVBOAndIBO",
       "deleteVBOAndIBO", "display", "keyboard", "mouse", "motion",
       "timerEvent", "runCuda", "runAutoTest", "checkResultCuda"]
    bodyDefines :=
      ["WINDOWS_LEAN_AND_MEAN", "NOMINMAX", "glutCloseFunc",
       "GLM_FORCE_CUDA", "MAX_EPSILON_ERROR", "THRESHOLD", "REFRESH_DELAY"] }

/-- The declarations a translation unit obtains from a header, given the set
of preprocessor symbols defined before the `#include`. -/
def preprocess (definedSyms : List String) (h : Header) : List String :=
  match h.guardKind with
  | GuardKind.ifdefGuard =>
      if h.guardSymbol ∈ definedSyms then h.bodyDecls else []
  | GuardKind.ifndefGuard =>
      if h.guardSymbol ∈ definedSyms then [] else h.bodyDecls

/-! ### Sample data used by witnesses -/

/-- A concrete rigid-body record used by witnesses: 4 vertices, zero
velocity, centroid and initial location (1,2,3), identity rotation. -/
def sampleObject : RigidObject :=
  { n_vertices := 4
    speed := Vec3.zero
    centroid := ⟨1, 2, 3⟩
    initial_location := ⟨1, 2, 3⟩
    rotation_matrix := Mat4.id }

/-- A record whose vertex count alone exceeds the whole cumulative vertex
budget (`MAX_MAPPINGS`), used to exercise the Register budget failure. -/
def hugeObject : RigidObject :=
  { sampleObject with n_vertices := MAX_MAPPINGS + 1 }

/-! ### Claims -/

/-- Claim C10: for every translation unit that includes `object.h` (resp.
`render.h`) without having previously defined `OBJECT_H` (resp. `RENDER_H`),
the preprocessor excludes the entire contents of the header — no declaration
of the body survives — because the guard is written `#ifdef` instead of
`#ifndef`, and neither guarded body ever defines its own guard symbol. -/
theorem ifdef_guard_excludes_header_contents (definedSyms : List String)
    (hO : "OBJECT_H" ∉ definedSyms) (hR : "RENDER_H" ∉ definedSyms) :
    preprocess definedSyms object_h = [] ∧
    preprocess definedSyms render_h = [] ∧
    object_h.guardKind = GuardKind.ifdefGuard ∧
    render_h.guardKind = GuardKind.ifdefGuard ∧
    "OBJECT_H" ∉ object_h.bodyDefines ∧
    "RENDER_H" ∉ render_h.bodyDefines := by
  refine ⟨?_, ?_, rfl, rfl, by decide, by decide⟩
  · simp [preprocess, object_h, hO]
  · simp [preprocess, render_h, hR]

/-- Witness for C10 at the empty set of predefined symbols. -/
theorem ifdef_guard_excludes_header_contents_witness :
    preprocess [] object_h = [] ∧ preprocess [] render_h = [] :=
  ⟨(ifdef_guard_excludes_header_contents [] (by decide) (by decide)).1,
   (ifdef_guard_excludes_header_contents [] (by decide) (by decide)).2.1⟩

/-- Claim C9: `Get` returns the record stored at the handle when the handle is in
range, and fails with `InvalidHandle` when it is out of range; in particular
it never returns a record for an out-of-range handle. -/
theorem Get_spec (reg : Registry) (h : Nat) :
    (∀ hlt : h < reg.objs.length, Get reg h = Except.ok (reg.objs.get ⟨h, hlt⟩)) ∧
    (reg.objs.length ≤ h → Get reg h = Except.error RegError.InvalidHandle) := by
  constructor
  · intro hlt
    unfold Get
    rw [List.getElem?_eq_getElem hlt]
    simp
  · intro hge
    unfold Get
    rw [List.getElem?_eq_none hge]

/-- Witness for C9: a one-object registry answers handle 0 with the record
and handle 1 with `InvalidHandle`. -/
theorem Get_spec_witness :
    Get ⟨[sampleObject]⟩ 0 = Except.ok sampleObject ∧
    Get ⟨[sampleObject]⟩ 1 = Except.error RegError.InvalidHandle :=
  ⟨(Get_spec ⟨[sampleObject]⟩ 0).1 (by simp), (Get_spec ⟨[sampleObject]⟩ 1).2 (by simp)⟩

/-- Counterexample to claim C2 as stated: the empty registry is far below
the fixed capacity 1500, yet registering a single object whose vertex count
exceeds the cumulative vertex budget (`MAX_MAPPINGS`) fails with
`CapacityExceeded` — §4.3 makes the budget a second, independent failure
condition — and the registry is left unchanged. -/
theorem Register_below_capacity_fails_counterexample :
    (⟨[]⟩ : Registry).objs.length < OBJECT_COUNT ∧
    (Register ⟨[]⟩ hugeObject).1 = Except.error RegError.CapacityExceeded ∧
    (Register ⟨[]⟩ hugeObject).2 = ⟨[]⟩ := by
  have hcond : ¬((⟨[]⟩ : Registry).objs.length < OBJECT_COUNT ∧
      vertexBudget ⟨[]⟩ + hugeObject.n_vertices ≤ MAX_MAPPINGS) := by decide
  refine ⟨by decide, ?_, ?_⟩
  · unfold Register
    rw [if_neg hcond]
  · unfold Register
    rw [if_neg hcond]

/-- Claim C2 (amended): a registration succeeds and appends the record
whenever the registry is below the fixed capacity `OBJECT_COUNT = 1500`
AND the cumulative vertex budget stays within `MAX_MAPPINGS`; a
registration while the registry is full, or one that would push the
cumulative vertex budget past the bound, fails with `CapacityExceeded` and
leaves the registry unchanged — no partial state; and the registry size
never exceeds the capacity (nor the budget its bound). -/
theorem Register_spec (reg : Registry) (o : RigidObject) :
    (reg.objs.length < OBJECT_COUNT →
       vertexBudget reg + o.n_vertices ≤ MAX_MAPPINGS →
       (Register reg o).1 = Except.ok reg.objs.length ∧
       (Register reg o).2 = ⟨reg.objs ++ [o]⟩) ∧
    (OBJECT_COUNT ≤ reg.objs.length →
       (Register reg o).1 = Except.error RegError.CapacityExceeded ∧
       (Register reg o).2 = reg) ∧
    (MAX_MAPPINGS < vertexBudget reg + o.n_vertices →
       (Register reg o).1 = Except.error RegError.CapacityExceeded ∧
       (Register reg o).2 = reg) ∧
    (reg.objs.length ≤ OBJECT_COUNT →
       (Register reg o).2.objs.length ≤ OBJECT_COUNT) ∧
    (vertexBudget reg ≤ MAX_MAPPINGS →
       vertexBudget (Register reg o).2 ≤ MAX_MAPPINGS) := by
  unfold Register
  refine ⟨fun hlt hbud => ?_, fun hge => ?_, fun hbud => ?_, fun hle => ?_,
    fun hb => ?_⟩
  · rw [if_pos ⟨hlt, hbud⟩]; exact ⟨rfl, rfl⟩
  · rw [if_neg (by omega)]; exact ⟨rfl, rfl⟩
  · rw [if_neg (by omega)]; exact ⟨rfl, rfl⟩
  · by_cases hc : reg.objs.length < OBJECT_COUNT ∧
        vertexBudget reg + o.n_vertices ≤ MAX_MAPPINGS
    · rw [if_pos hc]; simp; omega
    · rw [if_neg hc]; exact hle
  · by_cases hc : reg.objs.length < OBJECT_COUNT ∧
        vertexBudget reg + o.n_vertices ≤ MAX_MAPPINGS
    · rw [if_pos hc]
      have hbudget : vertexBudget ⟨reg.objs ++ [o]⟩ =
          vertexBudget reg + o.n_vertices := by
        simp [vertexBudget]
      rw [hbudget]
      exact hc.2
    · rw [if_neg hc]; exact hb

/-- Witness for C2 (amended): from the empty registry the first registration
succeeds with handle 0; a full registry of 1500 records rejects the next
registration with `CapacityExceeded` and is left unchanged; and a
budget-exhausting registration is rejected even below capacity. -/
theorem Register_spec_witness :
    (Register ⟨[]⟩ sampleObject).1 = Except.ok 0 ∧
    (Register ⟨List.replicate 1500 sampleObject⟩ sampleObject).1 =
      Except.error RegError.CapacityExceeded ∧
    (Register ⟨List.replicate 1500 sampleObject⟩ sampleObject).2 =
      ⟨List.replicate 1500 sampleObject⟩ ∧
    (Register ⟨[]⟩ hugeObject).1 = Except.error RegError.CapacityExceeded := by
  refine ⟨?_, ?_, ?_, ?_⟩
  · exact ((Register_spec ⟨[]⟩ sampleObject).1 (by decide) (by decide)).1
  · exact ((Register_spec ⟨List.replicate 1500 sampleObject⟩ sampleObject).2.1
      (by rw [List.length_replicate]; exact Nat.le_refl 1500)).1
  · exact ((Register_spec ⟨List.replicate 1500 sampleObject⟩ sampleObject).2.1
      (by rw [List.length_replicate]; exact Nat.le_refl 1500)).2
  · exact ((Register_spec ⟨[]⟩ hugeObject).2.2.1 (by decide)).1

/-- Claim C5: after one Simulation Step with timestep `dt`, an object's centroid
equals its previous centroid plus `velocity * dt` (exact arithmetic stands
in for "within floating-point tolerance"); and with velocity `(0,0,0)` the
centroid is unchanged across any number of frames, for every configured
angular update rule. -/
theorem simStep_centroid_spec (rot : Mat4 → Mat4) (dt : ℚ) (o : RigidObject) :
    (simStepObject rot dt o).centroid = o.centroid + Vec3.scale dt o.speed ∧
    (o.speed = Vec3.zero → ∀ n, (simStepN rot dt o n).centroid = o.centroid) := by
  constructor
  · rfl
  · intro hzero n
    induction n generalizing o with
    | zero => rfl
    | succ m ih =>
        have hstep : (simStepObject rot dt o).centroid = o.centroid := by
          show o.centroid + Vec3.scale dt o.speed = o.centroid
          rw [hzero]
          show Vec3.add o.centroid (Vec3.scale dt Vec3.zero) = o.centroid
          obtain ⟨cx, cy, cz⟩ := o.centroid
          simp [Vec3.add, Vec3.scale, Vec3.zero]
        have hspeed : (simStepObject rot dt o).speed = o.speed := rfl
        show (simStepN rot dt (simStepObject rot dt o) m).centroid = o.centroid
        rw [ih (simStepObject rot dt o) (hspeed.trans hzero), hstep]

/-- Witness for C5: one step with `dt = 1` moves centroid `(1,2,3)` by
velocity `(0,0,0)` to itself, and 5 frames leave `sampleObject`'s centroid
at `(1,2,3)`. -/
theorem simStep_centroid_spec_witness :
    (simStepObject id 1 sampleObject).centroid =
      sampleObject.centroid + Vec3.scale 1 sampleObject.speed ∧
    (simStepN id 1 sampleObject 5).centroid = sampleObject.centroid :=
  ⟨(simStep_centroid_spec id 1 sampleObject).1,
   (simStep_centroid_spec id 1 sampleObject).2 rfl 5⟩

/-- Claim C6: across any number of Simulation Steps only `centroid` and
`rotation_matrix` may change: `n_vertices`, `initial_location` (write-once)
and `speed` hold their load-time values, for every configured angular update
rule. -/
theorem simStep_frame_effect (rot : Mat4 → Mat4) (dt : ℚ) (o : RigidObject)
    (n : Nat) :
    (simStepN rot dt o n).n_vertices = o.n_vertices ∧
    (simStepN rot dt o n).initial_location = o.initial_location ∧
    (simStepN rot dt o n).speed = o.speed := by
  induction n generalizing o with
  | zero => exact ⟨rfl, rfl, rfl⟩
  | succ m ih =>
      have h := ih (simStepObject rot dt o)
      exact ⟨h.1, h.2.1, h.2.2⟩

/-- Claim C7: whenever `loadOBJ` reports a failure, both output containers are
empty — no partial population on any failure path. -/
theorem loadOBJ_no_partial_on_failure (file : Option (List ObjRecord))
    (e : LoadError) (h : (loadOBJ file).1 = some e) :
    (loadOBJ file).2.1 = [] ∧ (loadOBJ file).2.2 = [] := by
  match file with
  | none => exact ⟨rfl, rfl⟩
  | some records =>
      match hp : parseRecords [] [] records with
      | Except.ok (vs, ms) =>
          have hl : loadOBJ (some records) = (none, vs, ms) := by
            simp [loadOBJ, hp]
          rw [hl] at h
          exact absurd h (by simp)
      | Except.error e2 =>
          have hl : loadOBJ (some records) = (some e2, [], []) := by
            simp [loadOBJ, hp]
          rw [hl]
          exact ⟨rfl, rfl⟩

/-- Witness for C7: a file whose first record parses as a vertex and whose
second is malformed fails, and both containers come back empty — the vertex
read before the failure is not leaked. -/
theorem loadOBJ_no_partial_on_failure_witness :
    (loadOBJ (some [ObjRecord.vertex 1 2 3, ObjRecord.malformed])).2.1 = [] ∧
    (loadOBJ (some [ObjRecord.vertex 1 2 3, ObjRecord.malformed])).2.2 = [] :=
  loadOBJ_no_partial_on_failure (some [ObjRecord.vertex 1 2 3, ObjRecord.malformed])
    LoadError.malformedRecord rfl

/-- The seed of a `max`-fold never exceeds the fold's result. -/
lemma foldl_max_seed_le (l : List ℚ) (a : ℚ) : a ≤ l.foldl max a := by
  induction l generalizing a with
  | nil => exact le_refl a
  | cons b t ih => exact le_trans (le_max_left a b) (ih (max a b))

/-- Every element of the list is bounded by the `max`-fold's result. -/
lemma foldl_max_is_ub (l : List ℚ) (a : ℚ) : ∀ q ∈ l, q ≤ l.foldl max a := by
  induction l generalizing a with
  | nil => intro q hq; exact absurd hq (List.not_mem_nil q)
  | cons b t ih =>
      intro q hq
      rcases List.mem_cons.mp hq with hqb | hqt
      · subst hqb
        exact le_trans (le_max_right a q) (foldl_max_seed_le t (max a q))
      · exact ih (max a b) q hqt

/-- The `max`-fold's result is the seed or an element of the list. -/
lemma foldl_max_mem (l : List ℚ) (a : ℚ) :
    l.foldl max a = a ∨ l.foldl max a ∈ l := by
  induction l generalizing a with
  | nil => exact Or.inl rfl
  | cons b t ih =>
      rcases ih (max a b) with h | h
      · rcases max_choice a b with hab | hab
        · exact Or.inl (by rw [List.foldl_cons, h, hab])
        · exact Or.inr (by rw [List.foldl_cons, h, hab]; exact List.mem_cons_self b t)
      · exact Or.inr (List.mem_cons_of_mem b h)

/-- Every flattened absolute coordinate magnitude is nonnegative. -/
lemma allAbsCoords_nonneg (objs : List (List Vec3)) :
    ∀ q ∈ allAbsCoords objs, 0 ≤ q := by
  intro q hq
  simp only [allAbsCoords, List.mem_flatMap, Vec3.absCoords, List.mem_cons,
    List.not_mem_nil, or_false] at hq
  obtain ⟨vs, -, v, -, hv⟩ := hq
  rcases hv with h | h | h
  · rw [h]; exact abs_nonneg _
  · rw [h]; exact abs_nonneg _
  · rw [h]; exact abs_nonneg _

/-- Claim C1: `getMaximumBoundingBox` returns the single largest absolute
coordinate magnitude found across all objects and all axes: it is an upper
bound of every absolute coordinate, it is attained by one of them whenever
any coordinate exists, and for the empty collection it returns the
documented sentinel 0. -/
theorem getMaximumBoundingBox_spec (objs : List (List Vec3)) :
    (∀ q ∈ allAbsCoords objs, q ≤ getMaximumBoundingBox objs) ∧
    (allAbsCoords objs ≠ [] →
       getMaximumBoundingBox objs ∈ allAbsCoords objs) ∧
    (objs = [] → getMaximumBoundingBox objs = 0) := by
  have hdef : getMaximumBoundingBox objs = (allAbsCoords objs).foldl max 0 := rfl
  refine ⟨?_, ?_, ?_⟩
  · intro q hq
    rw [hdef]
    exact foldl_max_is_ub (allAbsCoords objs) 0 q hq
  · intro hne
    rw [hdef]
    rcases foldl_max_mem (allAbsCoords objs) 0 with h0 | hmem
    · rw [h0]
      match hl : allAbsCoords objs with
      | [] => exact absurd hl hne
      | q :: rest =>
          have hmemq : q ∈ allAbsCoords objs := by
            rw [hl]; exact List.mem_cons_self q rest
          have hle : q ≤ 0 := by
            have hub := foldl_max_is_ub (allAbsCoords objs) 0 q hmemq
            rw [h0] at hub
            exact hub
          have hge : 0 ≤ q := allAbsCoords_nonneg objs q hmemq
          have hq0 : q = 0 := le_antisymm hle hge
          rw [← hq0]
          exact List.mem_cons_self q rest
    · exact hmem
  · intro hempty
    rw [hempty]
    rfl

/-- Witness for C1: the collection `[[(1,-5,2)],[(0,3,0)]]` has a nonempty
coordinate list, and the result is attained among and bounds the absolute
magnitudes. -/
theorem getMaximumBoundingBox_spec_witness :
    allAbsCoords [[(⟨1, -5, 2⟩ : Vec3)], [⟨0, 3, 0⟩]] ≠ [] ∧
    getMaximumBoundingBox [[(⟨1, -5, 2⟩ : Vec3)], [⟨0, 3, 0⟩]] ∈
      allAbsCoords [[(⟨1, -5, 2⟩ : Vec3)], [⟨0, 3, 0⟩]] ∧
    |(-5 : ℚ)| ≤ getMaximumBoundingBox [[(⟨1, -5, 2⟩ : Vec3)], [⟨0, 3, 0⟩]] := by
  refine ⟨by decide, ?_, ?_⟩
  · exact (getMaximumBoundingBox_spec [[(⟨1, -5, 2⟩ : Vec3)], [⟨0, 3, 0⟩]]).2.1 (by decide)
  · exact (getMaximumBoundingBox_spec [[(⟨1, -5, 2⟩ : Vec3)], [⟨0, 3, 0⟩]]).1
      |(-5 : ℚ)| (by decide)

/-- Prefix sums of a list of naturals are monotone in the prefix length. -/
lemma sum_take_mono (l : List Nat) (i j : Nat) (hij : i ≤ j) :
    (l.take i).sum ≤ (l.take j).sum := by
  induction l generalizing i j with
  | nil => simp
  | cons c rest ih =>
      match i, j with
      | 0, _ => simp [Nat.zero_le]
      | Nat.succ i', Nat.succ j' =>
          simp only [List.take_succ_cons, List.sum_cons]
          exact Nat.add_le_add_left (ih i' j' (Nat.le_of_succ_le_succ hij)) c

/-- A prefix sum never exceeds the total sum. -/
lemma sum_take_le_sum (l : List Nat) (i : Nat) : (l.take i).sum ≤ l.sum := by
  induction l generalizing i with
  | nil => simp
  | cons c rest ih =>
      match i with
      | 0 => simp [Nat.zero_le]
      | Nat.succ i' =>
          simp only [List.take_succ_cons, List.sum_cons]
          exact Nat.add_le_add_left (ih i') c

/-- Stepping the offset past object `i` adds exactly object `i`'s vertex
count. -/
lemma objOffset_succ (counts : List Nat) (i : Nat) (hi : i < counts.length) :
    objOffset counts (i + 1) = objOffset counts i + counts.getD i 0 := by
  induction counts generalizing i with
  | nil => simp at hi
  | cons c rest ih =>
      match i with
      | 0 => simp [objOffset]
      | Nat.succ i' =>
          have hi' : i' < rest.length := by
            simpa using Nat.lt_of_succ_lt_succ hi
          have := ih i' hi'
          simp only [objOffset, List.take_succ_cons, List.sum_cons,
            List.getD_cons_succ] at *
          omega

/-- Unfolding the decidable range test. -/
lemma inWriteRange_iff (counts : List Nat) (i p : Nat) :
    inWriteRange counts i p = true ↔
      objOffset counts i ≤ p ∧ p < objOffset counts i + counts.getD i 0 := by
  simp [inWriteRange]

/-- Every buffer position below the total vertex count lies in some object's
write range. -/
lemma writeRange_cover (counts : List Nat) (p : Nat) (hp : p < counts.sum) :
    ∃ i, i < counts.length ∧ inWriteRange counts i p = true := by
  induction counts generalizing p with
  | nil => simp at hp
  | cons c rest ih =>
      by_cases hpc : p < c
      · refine ⟨0, by simp, ?_⟩
        rw [inWriteRange_iff]
        simp [objOffset, hpc]
      · have hcp : c ≤ p := Nat.le_of_not_lt hpc
        have hp' : p - c < rest.sum := by
          simp only [List.sum_cons] at hp
          omega
        obtain ⟨i, hilen, hir⟩ := ih (p - c) hp'
        rw [inWriteRange_iff] at hir
        refine ⟨i + 1, by simpa using Nat.succ_lt_succ hilen, ?_⟩
        rw [inWriteRange_iff]
        have hoff : objOffset (c :: rest) (i + 1) = c + objOffset rest i := by
          simp [objOffset]
        rw [hoff]
        simp only [List.getD_cons_succ]
        omega

/-- Claim C4: with per-object offsets equal to the sum of the preceding vertex
counts, the write ranges of distinct objects never overlap, every buffer
position below the total vertex count belongs to some object's range (no
gap), each object's range stays inside the buffer, and each object's range
holds exactly its `vertexCount` positions. -/
theorem simStep_write_ranges (counts : List Nat) :
    (∀ i, objOffset counts i = (counts.take i).sum) ∧
    (∀ p i j, i < j → j < counts.length →
       ¬(inWriteRange counts i p = true ∧ inWriteRange counts j p = true)) ∧
    (∀ p, p < counts.sum →
       ∃ i, i < counts.length ∧ inWriteRange counts i p = true) ∧
    (∀ i p, inWriteRange counts i p = true → i < counts.length → p < counts.sum) ∧
    (∀ i, (Finset.Ico (objOffset counts i)
        (objOffset counts i + counts.getD i 0)).card = counts.getD i 0) := by
  refine ⟨fun i => rfl, ?_, writeRange_cover counts, ?_, ?_⟩
  · intro p i j hij hjlen hcontra
    obtain ⟨hip, hjp⟩ := hcontra
    rw [inWriteRange_iff] at hip hjp
    have hilen : i < counts.length := lt_trans hij hjlen
    have hstep : objOffset counts (i + 1) = objOffset counts i + counts.getD i 0 :=
      objOffset_succ counts i hilen
    have hmono : objOffset counts (i + 1) ≤ objOffset counts j :=
      sum_take_mono counts (i + 1) j hij
    omega
  · intro i p hip hilen
    rw [inWriteRange_iff] at hip
    have hstep : objOffset counts (i + 1) = objOffset counts i + counts.getD i 0 :=
      objOffset_succ counts i hilen
    have hle : objOffset counts (i + 1) ≤ counts.sum := sum_take_le_sum counts (i + 1)
    omega
  · intro i
    rw [Nat.card_Ico]
    omega

/-- Witness for C4 at the spec's scenario `{10, 20, 5}`: the offsets are
0, 10, 30; position 15 falls in some object's range; ranges 0 and 1 do not
overlap at position 15; and position 12 (range 1) is inside the buffer. -/
theorem simStep_write_ranges_witness :
    objOffset [10, 20, 5] 0 = 0 ∧
    objOffset [10, 20, 5] 1 = 10 ∧
    objOffset [10, 20, 5] 2 = 30 ∧
    (∃ i, i < [10, 20, 5].length ∧ inWriteRange [10, 20, 5] i 15 = true) ∧
    ¬(inWriteRange [10, 20, 5] 0 15 = true ∧ inWriteRange [10, 20, 5] 1 15 = true) ∧
    (inWriteRange [10, 20, 5] 1 12 = true → 1 < [10, 20, 5].length → 12 < [10, 20, 5].sum) := by
  refine ⟨by decide, by decide, by decide, ?_, ?_, ?_⟩
  · exact (simStep_write_ranges [10, 20, 5]).2.2.1 15 (by decide)
  · exact (simStep_write_ranges [10, 20, 5]).2.1 15 0 1 (by decide) (by decide)
  · exact (simStep_write_ranges [10, 20, 5]).2.2.2.1 1 12

/-- Invariant of the record-by-record parse: starting from accumulators
whose mapping indices are all in bounds, a successful parse yields one
vertex per vertex record and keeps every mapping index below the final
vertex count. -/
lemma parseRecords_spec (records : List ObjRecord) (vs : List Vec3)
    (ms : List Nat) (vsf : List Vec3) (msf : List Nat)
    (hinv : ∀ m ∈ ms, m < vs.length)
    (hok : parseRecords vs ms records = Except.ok (vsf, msf)) :
    vsf.length = vs.length + countVertexRecords records ∧
    (∀ m ∈ msf, m < vsf.length) := by
  induction records generalizing vs ms with
  | nil =>
      have h1 : vsf = vs ∧ msf = ms := by
        simp only [parseRecords] at hok
        exact ⟨(Prod.mk.injEq _ _ _ _ ▸ Except.ok.inj hok).1.symm,
               (Prod.mk.injEq _ _ _ _ ▸ Except.ok.inj hok).2.symm⟩
      obtain ⟨hv, hm⟩ := h1
      subst hv; subst hm
      exact ⟨by simp [countVertexRecords], hinv⟩
  | cons r rest ih =>
      match r with
      | ObjRecord.vertex x y z =>
          have hok' : parseRecords (vs ++ [⟨x, y, z⟩]) ms rest = Except.ok (vsf, msf) := hok
          have hinv' : ∀ m ∈ ms, m < (vs ++ [(⟨x, y, z⟩ : Vec3)]).length := by
            intro m hm
            have := hinv m hm
            simp only [List.length_append, List.length_cons, List.length_nil]
            omega
          obtain ⟨h1, h2⟩ := ih (vs ++ [⟨x, y, z⟩]) ms hinv' hok'
          refine ⟨?_, h2⟩
          rw [h1]
          simp only [List.length_append, List.length_cons, List.length_nil,
            countVertexRecords]
          omega
      | ObjRecord.face a b c =>
          simp only [parseRecords] at hok
          by_cases hguard : a < vs.length ∧ b < vs.length ∧ c < vs.length
          · rw [if_pos hguard] at hok
            have hinv' : ∀ m ∈ ms ++ [a, b, c], m < vs.length := by
              intro m hm
              rcases List.mem_append.mp hm with hold | hnew
              · exact hinv m hold
              · rcases List.mem_cons.mp hnew with h1 | hnew1
                · subst h1; exact hguard.1
                · rcases List.mem_cons.mp hnew1 with h2 | hnew2
                  · subst h2; exact hguard.2.1
                  · rcases List.mem_cons.mp hnew2 with h3 | hnil
                    · subst h3; exact hguard.2.2
                    · exact absurd hnil (List.not_mem_nil m)
            obtain ⟨h1, h2⟩ := ih vs (ms ++ [a, b, c]) hinv' hok
            exact ⟨by rw [h1]; simp [countVertexRecords], h2⟩
          · rw [if_neg hguard] at hok
            exact absurd hok (by simp)
      | ObjRecord.malformed =>
          simp only [parseRecords] at hok
          exact absurd hok (by simp)

/-- Claim C8: for every mesh file `loadOBJ` accepts, the vertex sequence holds
exactly one entry per vertex record of the file, and every index in the
mapping sequence is strictly below `vertices.size()` (each mapping is an
in-bounds index into `vertices`). -/
theorem loadOBJ_valid_mesh (records : List ObjRecord) (vs : List Vec3)
    (ms : List Nat) (h : loadOBJ (some records) = (none, vs, ms)) :
    vs.length = countVertexRecords records ∧ ∀ m ∈ ms, m < vs.length := by
  match hp : parseRecords [] [] records with
  | Except.ok (vs0, ms0) =>
      have hl : loadOBJ (some records) = (none, vs0, ms0) := by
        simp [loadOBJ, hp]
      rw [hl] at h
      have hv : vs0 = vs := congrArg (fun t => t.2.1) h
      have hm : ms0 = ms := congrArg (fun t => t.2.2) h
      rw [← hv, ← hm]
      have hs := parseRecords_spec records [] [] vs0 ms0 (by simp) hp
      simpa using hs
  | Except.error e =>
      have hl : loadOBJ (some records) = (some e, [], []) := by
        simp [loadOBJ, hp]
      rw [hl] at h
      exact absurd (congrArg (fun t => t.1) h) (by simp)

/-- The spec's scenario file: 4 vertex records, 0 faces. -/
def fourVertexFile : List ObjRecord :=
  [ObjRecord.vertex 0 0 0, ObjRecord.vertex 1 0 0,
   ObjRecord.vertex 0 1 0, ObjRecord.vertex 0 0 1]

/-- Witness for C8 at the spec's scenario: a file with 0 faces and 4
vertices loads with `vertices.size() = 4 = countVertexRecords` and
`mappings.size() = 0`, every (vacuous) mapping in bounds. -/
theorem loadOBJ_valid_mesh_witness :
    ([(⟨0, 0, 0⟩ : Vec3), ⟨1, 0, 0⟩, ⟨0, 1, 0⟩, ⟨0, 0, 1⟩]).length =
      countVertexRecords fourVertexFile ∧
    (∀ m ∈ ([] : List Nat),
      m < ([(⟨0, 0, 0⟩ : Vec3), ⟨1, 0, 0⟩, ⟨0, 1, 0⟩, ⟨0, 0, 1⟩]).length) :=
  loadOBJ_valid_mesh fourVertexFile
    [⟨0, 0, 0⟩, ⟨1, 0, 0⟩, ⟨0, 1, 0⟩, ⟨0, 0, 1⟩] [] rfl

/-- Running a concatenated operation sequence threads the state through. -/
lemma runStates_append (s : BufState) (l1 l2 : List InteropOp) :
    runStates s (l1 ++ l2) = runStates (runStates s l1) l2 := by
  induction l1 generalizing s with
  | nil => rfl
  | cons o rest ih => simp only [List.cons_append, runStates]; exact ih _

/-- The `n`-th result of a run is the step applied to the state reached by
the first `n` operations. -/
lemma runResults_getElem (s : BufState) (ops : List InteropOp) (n : Nat)
    (op : InteropOp) (h : ops[n]? = some op) :
    (runResults s ops)[n]? =
      some (interopStep (runStates s (ops.take n)) op).1 := by
  induction ops generalizing s n with
  | nil => simp at h
  | cons o rest ih =>
      match n with
      | 0 =>
          have ho : o = op := by simpa using h
          subst ho
          simp [runResults, runStates]
      | Nat.succ n' =>
          have h' : rest[n']? = some op := by simpa using h
          simpa [runResults, runStates, List.take_succ_cons] using
            ih (interopStep s o).2 n' h'

/-- While no `ReleaseFromCompute` occurs, the buffer stays owned by
compute: every other operation fails from `OwnedByCompute` and leaves the
state unchanged. -/
lemma stays_OwnedByCompute (l : List InteropOp)
    (h : ∀ op ∈ l, op ≠ InteropOp.ReleaseFromCompute) :
    runStates BufState.OwnedByCompute l = BufState.OwnedByCompute := by
  induction l with
  | nil => rfl
  | cons o rest ih =>
      have ho := h o (List.mem_cons_self o rest)
      have hstep : (interopStep BufState.OwnedByCompute o).2 =
          BufState.OwnedByCompute := by
        cases o with
        | CreateAndRegister => rfl
        | AcquireForCompute => rfl
        | ReleaseFromCompute => exact absurd rfl ho
        | Destroy => rfl
      simp only [runStates, hstep]
      exact ih (fun op hop => h op (List.mem_cons_of_mem o hop))

/-- A successful `AcquireForCompute` leaves the buffer `OwnedByCompute`. -/
lemma acquire_ok_next (s : BufState)
    (h : (interopStep s InteropOp.AcquireForCompute).1 = Except.ok ()) :
    (interopStep s InteropOp.AcquireForCompute).2 = BufState.OwnedByCompute := by
  cases s with
  | Unregistered => exact absurd h (by simp [interopStep])
  | OwnedByGraphics => rfl
  | OwnedByCompute => exact absurd h (by simp [interopStep])

/-- Claim C3: in every operation sequence from every start state, two
`AcquireForCompute` calls never both succeed without an intervening
`ReleaseFromCompute`; and the offending second acquire from
`OwnedByCompute` fails with `InteropError` — the state is left unchanged
rather than crashing or silently proceeding. -/
theorem no_double_acquire (s : BufState) (ops : List InteropOp) (i j : Nat)
    (hij : i < j)
    (hopi : ops[i]? = some InteropOp.AcquireForCompute)
    (hri : (runResults s ops)[i]? = some (Except.ok ()))
    (hopj : ops[j]? = some InteropOp.AcquireForCompute)
    (hrj : (runResults s ops)[j]? = some (Except.ok ())) :
    (∃ k, i < k ∧ k < j ∧ ops[k]? = some InteropOp.ReleaseFromCompute) ∧
    interopStep BufState.OwnedByCompute InteropOp.AcquireForCompute =
      (Except.error InteropError.InteropError, BufState.OwnedByCompute) := by
  refine ⟨?_, rfl⟩
  by_contra hno
  push_neg at hno
  have hresi := runResults_getElem s ops i InteropOp.AcquireForCompute hopi
  have hoki : (interopStep (runStates s (ops.take i))
      InteropOp.AcquireForCompute).1 = Except.ok () :=
    Option.some.inj (hresi.symm.trans hri)
  have hnext := acquire_ok_next (runStates s (ops.take i)) hoki
  have htake1 : ops.take (i + 1) = ops.take i ++ [InteropOp.AcquireForCompute] := by
    rw [List.take_succ, hopi]
    rfl
  have hs1 : runStates s (ops.take (i + 1)) = BufState.OwnedByCompute := by
    rw [htake1, runStates_append]
    simp only [runStates]
    exact hnext
  have htakej : ops.take j = ops.take (i + 1) ++ ((ops.drop (i + 1)).take (j - (i + 1))) := by
    have hj : j = (i + 1) + (j - (i + 1)) := by omega
    have hsplit := List.take_add ops (i + 1) (j - (i + 1))
    rw [← hj] at hsplit
    exact hsplit
  have hmidnorel : ∀ op ∈ ((ops.drop (i + 1)).take (j - (i + 1))),
      op ≠ InteropOp.ReleaseFromCompute := by
    intro op hop hrel
    subst hrel
    obtain ⟨n, hn⟩ := List.mem_iff_getElem?.mp hop
    rw [List.getElem?_take] at hn
    by_cases hnb : n < j - (i + 1)
    · rw [if_pos hnb, List.getElem?_drop] at hn
      exact hno (i + 1 + n) (by omega) (by omega) hn
    · rw [if_neg hnb] at hn
      exact Option.noConfusion hn
  have hsj : runStates s (ops.take j) = BufState.OwnedByCompute := by
    rw [htakej, runStates_append, hs1]
    exact stays_OwnedByCompute _ hmidnorel
  have hresj := runResults_getElem s ops j InteropOp.AcquireForCompute hopj
  have hokj : (interopStep (runStates s (ops.take j))
      InteropOp.AcquireForCompute).1 = Except.ok () :=
    Option.some.inj (hresj.symm.trans hrj)
  rw [hsj] at hokj
  exact absurd hokj (by simp [interopStep])

/-- Witness for C3: in `[Acquire, Release, Acquire]` from `OwnedByGraphics`,
both acquires succeed, and the theorem yields the intervening release. -/
theorem no_double_acquire_witness :
    (0 : Nat) < 2 ∧
    [InteropOp.AcquireForCompute, InteropOp.ReleaseFromCompute,
      InteropOp.AcquireForCompute][0]? = some InteropOp.AcquireForCompute ∧
    (runResults BufState.OwnedByGraphics
      [InteropOp.AcquireForCompute, InteropOp.ReleaseFromCompute,
        InteropOp.AcquireForCompute])[0]? = some (Except.ok ()) ∧
    (∃ k, 0 < k ∧ k < 2 ∧
      [InteropOp.AcquireForCompute, InteropOp.ReleaseFromCompute,
        InteropOp.AcquireForCompute][k]? = some InteropOp.ReleaseFromCompute) :=
  ⟨by decide, by decide, by rfl,
   (no_double_acquire BufState.OwnedByGraphics
      [InteropOp.AcquireForCompute, InteropOp.ReleaseFromCompute,
        InteropOp.AcquireForCompute] 0 2
      (by decide) (by decide) (by rfl) (by decide) (by rfl)).1⟩
